import Mathlib

/-!
# Verification of the concurrent coupon-harvesting engine (`coupon_gen.py`)

Shallow embedding of the harvesting core: the shared harvest state mutated
under a single lock by worker threads (`worker_loop`), the deterministic
identity generator (`make_deterministic_email_from_seed`), checkpoint/audit
bootstrap (`read_index`, `find_last_index_for_seed_in_used`), the response
extractor (`_extract_from_webhook_response`), and the coordinator
(`generate_coupons_concurrent`).

All mutations of the shared dictionary happen inside `with shared_state["lock"]`
blocks, so every concurrent execution is equivalent to some sequence of the
atomic lock-held operations; the embedding therefore models a run as a list of
operations applied to the state in order.
-/

namespace CouponGen

/-! ## Shared harvest state (`shared_state` dict, built in
`generate_coupons_concurrent` lines 383-390) -/

/-- The `shared_state` dictionary: `attempts`, `collected`, `seen_codes`
(a Python `set`, modelled as the list of inserted codes — insertion only
happens after a membership check, so list membership is exactly set
membership), `results` (ordered list of `(email, code)` pairs), `done`. -/
structure SharedState where
  attempts : Nat
  collected : Nat
  seen_codes : List String
  results : List (String × String)
  done : Bool
deriving Repr, DecidableEq

/-- Initial shared state (`generate_coupons_concurrent` lines 383-390). -/
def initState : SharedState :=
  { attempts := 0, collected := 0, seen_codes := [], results := [], done := false }

/-- The configuration the lock-held blocks read: `config["max_attempts"]` and
the `target_count` argument of `worker_loop`. -/
structure Config where
  max_attempts : Nat
  target_count : Nat
deriving Repr, DecidableEq

/-- The lock-held reservation block at the top of `worker_loop` (lines
286-299): deny (returning the worker) if `done` is set, if `collected` has
reached `target_count` (setting `done`), or if `attempts` has reached
`max_attempts` (setting `done`); otherwise reserve the slot by incrementing
`attempts`.  The returned `Bool` is `true` iff the slot was granted. -/
def tryReserveAttempt (cfg : Config) (s : SharedState) : SharedState × Bool :=
  if s.done then (s, false)
  else if cfg.target_count ≤ s.collected then ({ s with done := true }, false)
  else if cfg.max_attempts ≤ s.attempts then ({ s with done := true }, false)
  else ({ s with attempts := s.attempts + 1 }, true)

/-- The lock-held recording block of `worker_loop` (lines 321-332): ignore a
code already in `seen_codes`; otherwise add it to `seen_codes`, append
`(cur_email if cur_email else "<empty>", code)` to `results`, increment
`collected`, and set `done` when `collected` reaches `target_count`.  The
returned `Bool` is `true` iff the result was recorded. -/
def tryRecord (cfg : Config) (email code : String) (s : SharedState) :
    SharedState × Bool :=
  if code ∈ s.seen_codes then (s, false)
  else
    let s1 : SharedState :=
      { s with
        seen_codes := code :: s.seen_codes
        results := s.results ++ [(if email = "" then "<empty>" else email, code)]
        collected := s.collected + 1 }
    if cfg.target_count ≤ s1.collected then ({ s1 with done := true }, true)
    else (s1, true)

/-- The `KeyboardInterrupt` handler of the coordinator (lines 417-420):
`shared_state["done"] = True` under the lock. -/
def forceStop (s : SharedState) : SharedState :=
  { s with done := true }

/-- One atomic lock-held operation on the shared state: a reservation
attempt, a recording attempt, the coordinator's force-stop, or a read-only
snapshot (the coordinator's monitor loop, lines 412-416). -/
inductive Op where
  | reserve : Op
  | record (email code : String) : Op
  | stop : Op
  | poll : Op
deriving Repr, DecidableEq

/-- Effect of one operation on the shared state. -/
def step (cfg : Config) (s : SharedState) : Op → SharedState
  | .reserve => (tryReserveAttempt cfg s).1
  | .record email code => (tryRecord cfg email code s).1
  | .stop => forceStop s
  | .poll => s

/-- Run a sequence of lock-held operations.  Since every mutation of
`shared_state` in the source is guarded by the single `shared_state["lock"]`,
every interleaving of the workers and the coordinator is one such sequence. -/
def runOps (cfg : Config) (s : SharedState) : List Op → SharedState
  | [] => s
  | op :: ops => runOps cfg (step cfg s op) ops

/-! ## Invariants of the shared state -/

/-- The dedup invariant: result codes are pairwise distinct, `collected`
counts the results, and every recorded code is in `seen_codes`. -/
def RecInv (s : SharedState) : Prop :=
  (s.results.map Prod.snd).Nodup ∧
    s.collected = s.results.length ∧
    ∀ c ∈ s.results.map Prod.snd, c ∈ s.seen_codes

theorem recInv_init : RecInv initState := by
  refine ⟨List.nodup_nil, rfl, ?_⟩
  intro c hc
  simp [initState] at hc

theorem recInv_step (cfg : Config) (s : SharedState) (op : Op)
    (h : RecInv s) : RecInv (step cfg s op) := by
  obtain ⟨hnd, hlen, hsub⟩ := h
  cases op with
  | reserve =>
    simp only [step, tryReserveAttempt]
    split
    · exact ⟨hnd, hlen, hsub⟩
    · split
      · exact ⟨hnd, hlen, hsub⟩
      · split
        · exact ⟨hnd, hlen, hsub⟩
        · exact ⟨hnd, hlen, hsub⟩
  | record email code =>
    simp only [step, tryRecord]
    split
    · exact ⟨hnd, hlen, hsub⟩
    · rename_i hnotseen
      have hnotres : code ∉ s.results.map Prod.snd := fun hc => hnotseen (hsub _ hc)
      have hnd' : ((s.results ++ [(if email = "" then "<empty>" else email, code)]).map
          Prod.snd).Nodup := by
        rw [List.map_append]
        simp only [List.map_cons, List.map_nil]
        exact List.Nodup.append hnd (List.nodup_singleton code)
          (by
            intro a ha hb
            simp only [List.mem_singleton] at hb
            exact hnotres (hb ▸ ha))
      have hlen' : s.collected + 1 =
          (s.results ++ [(if email = "" then "<empty>" else email, code)]).length := by
        rw [List.length_append, List.length_singleton, hlen]
      have hsub' : ∀ c ∈ (s.results ++
          [(if email = "" then "<empty>" else email, code)]).map Prod.snd,
          c ∈ code :: s.seen_codes := by
        intro c hc
        rw [List.map_append] at hc
        rcases List.mem_append.mp hc with hc | hc
        · exact List.mem_cons_of_mem _ (hsub _ hc)
        · simp only [List.map_cons, List.map_nil, List.mem_singleton] at hc
          exact hc ▸ List.mem_cons_self _ _
      split
      · exact ⟨hnd', hlen', hsub'⟩
      · exact ⟨hnd', hlen', hsub'⟩
  | stop => exact ⟨hnd, hlen, hsub⟩
  | poll => exact ⟨hnd, hlen, hsub⟩

theorem recInv_runOps (cfg : Config) (ops : List Op) (s : SharedState)
    (h : RecInv s) : RecInv (runOps cfg s ops) := by
  induction ops generalizing s with
  | nil => exact h
  | cons op ops ih => exact ih _ (recInv_step cfg s op h)

/-- C1: for every sequence of lock-held operations starting from the
initial state, the result codes are pairwise distinct and `collected`
equals the length of `results`. -/
theorem C1_record_dedup_invariant (cfg : Config) (ops : List Op) :
    ((runOps cfg initState ops).results.map Prod.snd).Nodup ∧
      (runOps cfg initState ops).collected =
        (runOps cfg initState ops).results.length := by
  obtain ⟨h1, h2, _⟩ := recInv_runOps cfg ops initState recInv_init
  exact ⟨h1, h2⟩

theorem attempts_le_step (cfg : Config) (s : SharedState) (op : Op)
    (h : s.attempts ≤ cfg.max_attempts) :
    (step cfg s op).attempts ≤ cfg.max_attempts := by
  cases op with
  | reserve =>
    simp only [step, tryReserveAttempt]
    split
    · exact h
    · split
      · exact h
      · split
        · exact h
        · rename_i hlt
          exact Nat.succ_le_of_lt (Nat.lt_of_not_le hlt)
  | record email code =>
    simp only [step, tryRecord]
    split
    · exact h
    · split
      · exact h
      · exact h
  | stop => exact h
  | poll => exact h

theorem attempts_le_runOps (cfg : Config) (ops : List Op) (s : SharedState)
    (h : s.attempts ≤ cfg.max_attempts) :
    (runOps cfg s ops).attempts ≤ cfg.max_attempts := by
  induction ops generalizing s with
  | nil => exact h
  | cons op ops ih => exact ih _ (attempts_le_step cfg s op h)

theorem reserveN_attempts (cfg : Config) (k a : Nat)
    (h : a + k ≤ cfg.max_attempts) (ht : 0 < cfg.target_count) :
    runOps cfg ⟨a, 0, [], [], false⟩ (List.replicate k Op.reserve) =
      ⟨a + k, 0, [], [], false⟩ := by
  induction k generalizing a with
  | zero => simp [runOps]
  | succ k ih =>
    rw [List.replicate_succ]
    have hstep : step cfg ⟨a, 0, [], [], false⟩ Op.reserve =
        ⟨a + 1, 0, [], [], false⟩ := by
      simp only [step, tryReserveAttempt]
      rw [if_neg (by simp), if_neg (by simpa using Nat.not_le.mpr ht),
        if_neg (Nat.not_le.mpr (by omega))]
    show runOps cfg (step cfg ⟨a, 0, [], [], false⟩ Op.reserve)
        (List.replicate k Op.reserve) = _
    rw [hstep, ih (a + 1) (by omega)]
    congr 1
    omega

/-- C2: (i) starting from the initial state, `attempts` never exceeds
`max_attempts` on any sequence of operations; (ii) a reservation arriving
when `attempts` has reached `max_attempts` (state not yet done, target not
yet met) is denied, leaves `attempts` unchanged, and sets `done`; (iii)
after `N` reservations from the initial state (all granted: no denials),
`attempts = N`. -/
theorem C2_attempts_bounded (cfg : Config) (ops : List Op) (N : Nat)
    (hN : N ≤ cfg.max_attempts) (ht : 0 < cfg.target_count) :
    (runOps cfg initState ops).attempts ≤ cfg.max_attempts ∧
      (∀ s : SharedState, s.done = false → s.collected < cfg.target_count →
        cfg.max_attempts ≤ s.attempts →
        (tryReserveAttempt cfg s).2 = false ∧
          (tryReserveAttempt cfg s).1.attempts = s.attempts ∧
          (tryReserveAttempt cfg s).1.done = true) ∧
      (runOps cfg initState (List.replicate N Op.reserve)).attempts = N ∧
      ∀ k, k < N →
        (tryReserveAttempt cfg
          (runOps cfg initState (List.replicate k Op.reserve))).2 = true := by
  refine ⟨attempts_le_runOps cfg ops initState (Nat.zero_le _), ?_, ?_, ?_⟩
  · intro s hdone hcol hatt
    simp only [tryReserveAttempt, hdone]
    rw [if_neg (by simp), if_neg (Nat.not_le.mpr hcol), if_pos hatt]
    exact ⟨rfl, rfl, rfl⟩
  · have h := reserveN_attempts cfg N 0 (by omega) ht
    have hinit : (⟨0, 0, [], [], false⟩ : SharedState) = initState := rfl
    rw [hinit] at h
    rw [h]
    simp
  · intro k hk
    have h := reserveN_attempts cfg k 0 (by omega) ht
    have hinit : (⟨0, 0, [], [], false⟩ : SharedState) = initState := rfl
    rw [hinit] at h
    rw [h]
    simp only [tryReserveAttempt]
    rw [if_neg (by simp), if_neg (by simpa using Nat.not_le.mpr ht),
      if_neg (Nat.not_le.mpr (by omega))]

/-- Witness for C2 at `max_attempts = 3`, `target_count = 1`, `N = 2`. -/
theorem C2_attempts_bounded_witness :
    2 ≤ 3 ∧ 0 < 1 ∧
      (runOps ⟨3, 1⟩ initState (List.replicate 2 Op.reserve)).attempts = 2 :=
  ⟨by decide, by decide,
    (C2_attempts_bounded ⟨3, 1⟩ [] 2 (by decide) (by decide)).2.2.1⟩

theorem done_mono_step (cfg : Config) (s : SharedState) (op : Op)
    (h : s.done = true) : (step cfg s op).done = true := by
  cases op with
  | reserve => simp only [step, tryReserveAttempt, h, if_true]
  | record email code =>
    simp only [step, tryRecord]
    split
    · exact h
    · split
      · rfl
      · exact h
  | stop => rfl
  | poll => exact h

/-- C9: once `done` is set, no later sequence of lock-held operations
(reservations, recordings, force-stop, read-only polling) ever clears it. -/
theorem C9_done_never_reverts (cfg : Config) (s : SharedState) (ops : List Op)
    (h : s.done = true) : (runOps cfg s ops).done = true := by
  induction ops generalizing s with
  | nil => exact h
  | cons op ops ih => exact ih _ (done_mono_step cfg s op h)

/-- Witness for C9: a stopped state stays stopped across a reservation, a
recording and a poll. -/
theorem C9_done_never_reverts_witness :
    (forceStop initState).done = true ∧
      (runOps ⟨5, 2⟩ (forceStop initState)
        [Op.reserve, Op.record "a@b" "AB-12345", Op.poll]).done = true :=
  ⟨rfl, C9_done_never_reverts ⟨5, 2⟩ (forceStop initState)
    [Op.reserve, Op.record "a@b" "AB-12345", Op.poll] rfl⟩

/-! ## Deterministic identity generator
(`make_deterministic_email_from_seed`, lines 169-171) -/

/-- Decimal digits of `n`, most significant first (`Nat.digits` is least
significant first). -/
def decDigitsBE (n : Nat) : List Nat := (Nat.digits 10 n).reverse

/-- Zero-padding to width `w`: the embedding of Python's `f"{n:06d}"` (for
`w = 6`) at the digit level.  `0` renders as `w` zeros, matching `"000000"`. -/
def padDigits (w n : Nat) : List Nat :=
  List.replicate (w - (decDigitsBE n).length) 0 ++ decDigitsBE n

/-- `make_deterministic_email_from_seed` (lines 169-171):
`f"{seed_hex[:8]}-{index:06d}@{domain}"`, with the zero-padded decimal
rendering of the index embedded as `(padDigits 6 index).map Nat.digitChar`. -/
def make_deterministic_email_from_seed (seed_hex : String) (index : Nat)
    (domain : String) : String :=
  ⟨seed_hex.data.take 8 ++
    '-' :: ((padDigits 6 index).map Nat.digitChar ++ '@' :: domain.data)⟩

def hornerStep (a d : Nat) : Nat := 10 * a + d

theorem foldl_horner_reverse (l : List Nat) (a : Nat) :
    l.reverse.foldl hornerStep a = a * 10 ^ l.length + Nat.ofDigits 10 l := by
  induction l generalizing a with
  | nil => simp [Nat.ofDigits_nil]
  | cons d t ih =>
    rw [List.reverse_cons, List.foldl_append, ih]
    simp only [List.foldl_cons, List.foldl_nil, hornerStep, Nat.ofDigits_cons,
      List.length_cons]
    ring

theorem foldl_horner_replicate_zero (k : Nat) :
    (List.replicate k 0).foldl hornerStep 0 = 0 := by
  induction k with
  | zero => rfl
  | succ k ih => simpa [List.replicate_succ, hornerStep] using ih

/-- Decoding a zero-padded digit list by Horner evaluation recovers the
padded number, whatever the width. -/
def hornerDec (l : List Nat) : Nat := l.foldl hornerStep 0

theorem hornerDec_padDigits (w n : Nat) : hornerDec (padDigits w n) = n := by
  unfold hornerDec padDigits decDigitsBE
  rw [List.foldl_append, foldl_horner_replicate_zero, foldl_horner_reverse]
  simp [Nat.ofDigits_digits]

theorem padDigits_inj (w : Nat) {m n : Nat} (h : padDigits w m = padDigits w n) :
    m = n := by
  have h2 := congrArg hornerDec h
  rwa [hornerDec_padDigits, hornerDec_padDigits] at h2

def undigit (c : Char) : Nat := c.toNat - 48

theorem undigit_digitChar {d : Nat} (h : d < 10) :
    undigit (Nat.digitChar d) = d := by
  interval_cases d <;> rfl

theorem padDigits_lt_ten (w n : Nat) : ∀ d ∈ padDigits w n, d < 10 := by
  intro d hd
  rcases List.mem_append.mp hd with h | h
  · rw [List.eq_of_mem_replicate h]; omega
  · exact Nat.digits_lt_base (by norm_num) (List.mem_reverse.mp h)

theorem map_undigit_map_digitChar (l : List Nat) (h : ∀ d ∈ l, d < 10) :
    (l.map Nat.digitChar).map undigit = l := by
  induction l with
  | nil => rfl
  | cons d t ih =>
    simp only [List.map_cons]
    rw [undigit_digitChar (h d (List.mem_cons_self d t)),
      ih (fun x hx => h x (List.mem_cons_of_mem d hx))]

/-- C3: the identity derivation is a pure function of (seed, index, domain),
and is injective in the index: distinct indices yield distinct identity
strings for the same seed and domain. -/
theorem C3_identity_pure_and_injective :
    (∀ (seed_hex domain : String) (i : Nat),
      make_deterministic_email_from_seed seed_hex i domain =
        make_deterministic_email_from_seed seed_hex i domain) ∧
    ∀ (seed_hex domain : String) (i j : Nat), i ≠ j →
      make_deterministic_email_from_seed seed_hex i domain ≠
        make_deterministic_email_from_seed seed_hex j domain := by
  refine ⟨fun _ _ _ => rfl, ?_⟩
  intro seed_hex domain i j hij heq
  apply hij
  have hdata : seed_hex.data.take 8 ++
      '-' :: ((padDigits 6 i).map Nat.digitChar ++ '@' :: domain.data) =
      seed_hex.data.take 8 ++
      '-' :: ((padDigits 6 j).map Nat.digitChar ++ '@' :: domain.data) :=
    congrArg String.data heq
  have h1 := List.append_cancel_left hdata
  have h2 : (padDigits 6 i).map Nat.digitChar ++ '@' :: domain.data =
      (padDigits 6 j).map Nat.digitChar ++ '@' :: domain.data :=
    List.tail_eq_of_cons_eq h1
  have h3 := List.append_cancel_right h2
  have h4 := congrArg (List.map undigit) h3
  rw [map_undigit_map_digitChar _ (padDigits_lt_ten 6 i),
    map_undigit_map_digitChar _ (padDigits_lt_ten 6 j)] at h4
  exact padDigits_inj 6 h4

/-- Witness for C3 at seed `"0123456789abcdef"`, indices 0 and 1. -/
theorem C3_identity_witness :
    (0 : Nat) ≠ 1 ∧
      make_deterministic_email_from_seed "0123456789abcdef" 0 "example.com" ≠
        make_deterministic_email_from_seed "0123456789abcdef" 1 "example.com" :=
  ⟨by decide,
    C3_identity_pure_and_injective.2 "0123456789abcdef" "example.com" 0 1
      (by decide)⟩

/-! ## Textual code extraction (`CODE_RE_URL`, `CODE_RE_BODY`,
`parse_code_from_url`, `parse_code_from_text`, lines 60-61 and 91-105).
The three regular expressions are embedded directly as backtracking
matchers over character lists, with Python `re.search` leftmost-match
semantics. -/

def isUpperAZ (c : Char) : Bool := 'A' ≤ c && c ≤ 'Z'

def isLowerAZ (c : Char) : Bool := 'a' ≤ c && c ≤ 'z'

def isDigit09 (c : Char) : Bool := '0' ≤ c && c ≤ '9'

/-- `[A-Z0-9]` of `CODE_RE_BODY`. -/
def isUpperOrDigit (c : Char) : Bool := isUpperAZ c || isDigit09 c

/-- Python `\w` (ASCII range; the harvested texts are ASCII). -/
def isWordChar (c : Char) : Bool :=
  isUpperAZ c || isLowerAZ c || isDigit09 c || c = '_'

/-- `[A-Za-z0-9\-\_]` of `CODE_RE_URL` and the loose key-value pattern. -/
def isKVChar (c : Char) : Bool :=
  isUpperAZ c || isLowerAZ c || isDigit09 c || c = '-' || c = '_'

/-- Python `\s` (ASCII range). -/
def isSpaceChar (c : Char) : Bool :=
  c = ' ' || c = '\t' || c = '\n' || c = '\r' || c.toNat = 11 || c.toNat = 12

/-- Take exactly `n` characters all satisfying `p`; the consumed prefix and
the remainder. -/
def takeExact (p : Char → Bool) : Nat → List Char → Option (List Char × List Char)
  | 0, cs => some ([], cs)
  | _ + 1, [] => none
  | n + 1, c :: cs =>
    if p c then
      match takeExact p n cs with
      | some (taken, rest) => some (c :: taken, rest)
      | none => none
    else none

/-- `\b` looking forward: the next character (if any) is not a word
character. -/
def nonWordAhead : List Char → Bool
  | [] => true
  | c :: _ => !isWordChar c

/-- `\b` looking backward from the start of a word-character match: the
previous character (if any) is not a word character. -/
def nonWordBehind : Option Char → Bool
  | none => true
  | some c => !isWordChar c

/-- `[A-Z0-9]{5,8}\b` matched greedily at the head of `rest` with exactly
`m` repetitions. -/
def matchSuffixLen (rest : List Char) (m : Nat) : Option (List Char) :=
  match takeExact isUpperOrDigit m rest with
  | some (taken, rest2) => if nonWordAhead rest2 then some taken else none
  | none => none

/-- `[A-Z0-9]{5,8}\b`: greedy, longest first (Python backtracking order). -/
def matchSuffix (rest : List Char) : Option (List Char) :=
  (matchSuffixLen rest 8).orElse fun _ =>
    (matchSuffixLen rest 7).orElse fun _ =>
      (matchSuffixLen rest 6).orElse fun _ => matchSuffixLen rest 5

/-- `[A-Z]{1,2}-[A-Z0-9]{5,8}\b` with exactly `k` leading letters. -/
def matchLetters (k : Nat) (cs : List Char) : Option (List Char) :=
  match takeExact isUpperAZ k cs with
  | some (letters, rest) =>
    match rest with
    | '-' :: rest2 =>
      match matchSuffix rest2 with
      | some suffix => some (letters ++ '-' :: suffix)
      | none => none
    | _ => none
  | none => none

/-- `CODE_RE_BODY` = `\b([A-Z]{1,2}-[A-Z0-9]{5,8})\b` anchored at the
current position; `prev` is the character before it. -/
def matchCodeAt (prev : Option Char) (cs : List Char) : Option (List Char) :=
  if nonWordBehind prev then
    (matchLetters 2 cs).orElse fun _ => matchLetters 1 cs
  else none

/-- `re.search` for `CODE_RE_BODY`: leftmost position wins. -/
def searchCodeAux : Option Char → List Char → Option (List Char)
  | _, [] => none
  | prev, c :: rest =>
    match matchCodeAt prev (c :: rest) with
    | some m => some m
    | none => searchCodeAux (some c) rest

/-- One or more characters satisfying `p`, greedily (`+`). -/
def takeWhile1 (p : Char → Bool) (cs : List Char) : Option (List Char) :=
  match cs.takeWhile p with
  | [] => none
  | t => some t

/-- The loose pattern `code[:=]\s*['\"]?([A-Za-z0-9\-\_]+)` anchored at the
current position (the quote characters `'` and `"` are compared through
their code points 39 and 34). -/
def matchKVAt : List Char → Option (List Char)
  | 'c' :: 'o' :: 'd' :: 'e' :: c :: rest =>
    if c = ':' || c = '=' then
      let rest2 := rest.dropWhile isSpaceChar
      let rest3 :=
        match rest2 with
        | q :: r => if q.toNat = 39 || q.toNat = 34 then r else rest2
        | [] => rest2
      takeWhile1 isKVChar rest3
    else none
  | _ => none

/-- `re.search` for the loose key-value pattern. -/
def searchKVAux : List Char → Option (List Char)
  | [] => none
  | c :: rest =>
    match matchKVAt (c :: rest) with
    | some m => some m
    | none => searchKVAux rest

/-- `CODE_RE_URL` = `[?&]code=([A-Za-z0-9\-\_]+)` anchored at the current
position. -/
def matchUrlCodeAt : List Char → Option (List Char)
  | c :: 'c' :: 'o' :: 'd' :: 'e' :: '=' :: rest =>
    if c = '?' || c = '&' then takeWhile1 isKVChar rest else none
  | _ => none

/-- `re.search` for `CODE_RE_URL`. -/
def searchUrlCodeAux : List Char → Option (List Char)
  | [] => none
  | c :: rest =>
    match matchUrlCodeAt (c :: rest) with
    | some m => some m
    | none => searchUrlCodeAux rest

/-- `parse_code_from_url` (lines 91-95); `if not u` is the empty-string
test. -/
def parse_code_from_url (u : String) : Option String :=
  if u = "" then none
  else (searchUrlCodeAux u.data).map fun l => ⟨l⟩

/-- `parse_code_from_text` (lines 98-105): the strict coupon shape first,
then the loose key-value fallback. -/
def parse_code_from_text (text : String) : Option String :=
  if text = "" then none
  else
    match searchCodeAux none text.data with
    | some m => some ⟨m⟩
    | none => (searchKVAux text.data).map fun l => ⟨l⟩

/-! ## Checkpoint and audit-log bootstrap (`read_index`,
`find_last_index_for_seed_in_used`, lines 128-135 and 147-166) -/

/-- Decimal value of a digit run, leftmost first. -/
def digitsValCore : List Char → Nat → Option Nat
  | [], acc => some acc
  | c :: cs, acc =>
    if isDigit09 c then digitsValCore cs (10 * acc + (c.toNat - 48)) else none

/-- Python `int(...)` over a character list: an optional sign followed by
one or more decimal digits; `none` models the `ValueError` branch.  (Exotic
accepted forms — digit-group underscores — are not modelled; none occur in
the checkpoint or audit-log formats.) -/
def pyIntChars? : List Char → Option Int
  | [] => none
  | '-' :: rest =>
    match rest with
    | [] => none
    | _ => (digitsValCore rest 0).map fun n => -(n : Int)
  | '+' :: rest =>
    match rest with
    | [] => none
    | _ => (digitsValCore rest 0).map fun n => (n : Int)
  | cs => (digitsValCore cs 0).map fun n => (n : Int)

def pyInt? (s : String) : Option Int := pyIntChars? s.data

/-- Python `str.strip()` (ASCII whitespace). -/
def pyStrip (s : String) : String :=
  ⟨((s.data.dropWhile isSpaceChar).reverse.dropWhile isSpaceChar).reverse⟩

/-- Python `line.split("@", 1)[0]`: the characters before the first `@`. -/
def localPartChars (cs : List Char) : List Char :=
  cs.takeWhile fun c => c != '@'

/-- Python `str.startswith` at the character level (`ps` is the prefix). -/
def startsWithChars : List Char → List Char → Bool
  | [], _ => true
  | _ :: _, [] => false
  | p :: ps, c :: cs => p = c && startsWithChars ps cs

/-- `read_index` (lines 128-135).  The checkpoint file is `none` when
absent, otherwise `some` its text.  Absent file → 0; unparseable text → 0
(the `except` branch); a parsed value is clamped below by `max(0, ...)`. -/
def read_index (fileContent : Option String) : Int :=
  match fileContent with
  | none => 0
  | some s =>
    match pyInt? (pyStrip s) with
    | some v => max 0 v
    | none => 0

/-- `find_last_index_for_seed_in_used` (lines 147-166).  The audit log is
`none` when the file is absent, otherwise the list of its lines.  Blank
lines are skipped, the local part is the text before the first `@`, a line
counts when the local part starts with `seed_short + "-"` and its suffix
parses as an integer; the result is one past the maximum parsed suffix, or
0 when no line counted. -/
def find_last_index_for_seed_in_used (usedLines : Option (List String))
    (seed_short : String) : Int :=
  match usedLines with
  | none => 0
  | some lines =>
    let max_idx : Int := lines.foldl (fun max_idx rawLine =>
      let line := pyStrip rawLine
      if line = "" then max_idx
      else
        let localPart := localPartChars line.data
        if startsWithChars (seed_short.data ++ ['-']) localPart then
          match pyIntChars? (localPart.drop (seed_short.data.length + 1)) with
          | some v => if max_idx < v then v else max_idx
          | none => max_idx
        else max_idx) (-1)
    if 0 ≤ max_idx then max_idx + 1 else 0

/-- The starting-index resolution of `generate_coupons_concurrent` (lines
369-375): an existing checkpoint file is authoritative (`read_index`),
otherwise the audit log is scanned. -/
def startingIndex (indexFileContent : Option String)
    (usedLines : Option (List String)) (seed_short : String) : Int :=
  match indexFileContent with
  | some s => read_index (some s)
  | none => find_last_index_for_seed_in_used usedLines seed_short

/-! ## Response extractor (`_extract_from_webhook_response`, lines
174-200) -/

/-- The fields `_extract_from_webhook_response` reads from the parsed JSON
body (`jd.get(...)`; the endpoint returns strings, so values are modelled
as optional strings). -/
structure JsonDict where
  couponUC : Option String
  couponLC : Option String
  codeKey : Option String
  couponCode : Option String
  pageUC : Option String
  pageLC : Option String
  mnpUC : Option String
  mnpLC : Option String
  opKey : Option String
deriving Repr, DecidableEq

/-- Python `a or b` on optional strings: `a` unless it is `None` or the
empty string. -/
def pyOr (a b : Option String) : Option String :=
  match a with
  | some s => if s = "" then b else some s
  | none => b

/-- Python truthiness of an optional string. -/
def truthy : Option String → Bool
  | none => false
  | some s => s != ""

/-- A received HTTP response: `json` is the parsed body (`none` when
`r.json()` raises or is not a dict), `text` is `r.text or ""`. -/
structure HttpResponse where
  json : Option JsonDict
  text : String
deriving Repr, DecidableEq

/-- The outcome of the fallback `session.get(THANKS_BASE, ...)`: final URL
after redirects and body text; the whole follow-up is `none` when the GET
raises. -/
structure FollowUpResult where
  url : String
  text : String
deriving Repr, DecidableEq

def THANKS_BASE : String := "https://verymobile.it/promo-meta1/grazie"

/-- `_extract_from_webhook_response` (lines 174-200), returning
`(code, final_url)`.  The follow-up GET is abstracted as
`followUp : Option FollowUpResult`; `requests.utils.requote_uri` on the
operator value is modelled as the identity (it only re-escapes characters
of the value). -/
def extract_from_webhook_response (r : HttpResponse)
    (followUp : Option FollowUpResult) : Option String × Option String :=
  let viaJson : Option (String × String) :=
    match r.json with
    | none => none
    | some jd =>
      let coupon := pyOr (pyOr (pyOr jd.couponUC jd.couponLC) jd.codeKey) jd.couponCode
      let page := pyOr jd.pageUC jd.pageLC
      let mnp := pyOr (pyOr jd.mnpUC jd.mnpLC) jd.opKey
      if truthy coupon && truthy page then
        let base := "https://verymobile.it/promo-meta1/" ++ page.getD "" ++
          "?code=" ++ coupon.getD ""
        let final_url := if truthy mnp then base ++ "&op=" ++ mnp.getD "" else base
        some (coupon.getD "", final_url)
      else none
  match viaJson with
  | some (c, u) => (some c, some u)
  | none =>
    let code := parse_code_from_text r.text
    if truthy code then (code, none)
    else
      match followUp with
      | none => (none, none)
      | some g =>
        let code2 := pyOr (parse_code_from_url g.url) (parse_code_from_text g.text)
        if truthy code2 then (code2, some g.url) else (none, none)

/-! ## Worker request payload (`worker_loop`, lines 300-308) -/

/-- The JSON body fields of the worker's POST, in order.  `no_email = true`
is deterministic-identity mode (the `--no-email` flag): the identity from
the generator is used; otherwise `config["fallback_email"]`.  Both branches
build `{"email": ..., "operator": ...}` and POST to
`STANDARD_WEBHOOK_URL`. -/
def workerPayload (no_email : Bool) (generated_email fallback_email
    operatorName : String) : List (String × String) :=
  if no_email then [("email", generated_email), ("operator", operatorName)]
  else [("email", fallback_email), ("operator", operatorName)]

/-! ## Coordinator (`generate_coupons_concurrent`, lines 338-455) -/

/-- `read_seed` (lines 121-125): the stripped seed-file text, `none` when
the file does not exist. -/
def read_seed (seedFileContent : Option String) : Option String :=
  seedFileContent.map pyStrip

/-- The seed bootstrap (lines 356-365): with `reuse_seed`, a missing seed
file — or one whose stripped text is empty, hence falsy — is a
configuration error (`none`); otherwise the freshly generated seed is
used. -/
def seedBootstrap (reuse_seed : Bool) (seedFileContent : Option String)
    (fresh_seed : String) : Option String :=
  if reuse_seed then
    match read_seed seedFileContent with
    | none => none
    | some s => if s = "" then none else some s
  else some fresh_seed

/-- The coordinator's post-drain result step (lines 426 and 455, with
`retry_with_email` off): `results_rows = shared_state["results"][:count]`
is the return value.  `seed_hex` is in scope at the return site but only
logged (its short form, line 454), never returned. -/
def coordinatorReturn (seed_hex : String) (results : List (String × String))
    (count : Nat) : List (String × String) :=
  results.take count

/-- What a run of `generate_coupons_concurrent` produces for its caller and
whether it spawned workers. -/
structure CoordinatorOutcome where
  configError : Bool
  workersSpawned : Nat
  results : List (String × String)
deriving Repr, DecidableEq

/-- `generate_coupons_concurrent` (lines 338-455) with the concurrent
harvest abstracted as `harvest : String → List (String × String)` (the
accumulated `shared_state["results"]` as a function of the seed in use,
`retry_with_email` off): the seed-bootstrap error path returns `[]` before
any worker thread is started (the early `return []` of line 361), otherwise
`concurrency` workers run and the result list is truncated to `count`. -/
def generate_coupons_concurrent (reuse_seed : Bool)
    (seedFileContent : Option String) (fresh_seed : String) (concurrency : Nat)
    (harvest : String → List (String × String)) (count : Nat) :
    CoordinatorOutcome :=
  match seedBootstrap reuse_seed seedFileContent fresh_seed with
  | none => ⟨true, 0, []⟩
  | some seed => ⟨false, concurrency, (harvest seed).take count⟩

/-! ## Claims C4-C8 and C10 -/

/-- The C4 scenario: response body `{"Coupon":"XY-99999"}`, no Page and no
URL field. -/
def c4Response : HttpResponse :=
  ⟨some ⟨some "XY-99999", none, none, none, none, none, none, none, none⟩,
    "\x7b\"Coupon\":\"XY-99999\"\x7d"⟩

/-- C4 counterexample: on `{"Coupon":"XY-99999"}` the extractor does return
the code `"XY-99999"`, but its redirect URL is `none`, not the thanks base
path with `?code=XY-99999` appended — no strategy of
`_extract_from_webhook_response` synthesizes a thanks URL from a bare
coupon field. -/
theorem C4_counterexample :
    (extract_from_webhook_response c4Response none).1 = some "XY-99999" ∧
      (extract_from_webhook_response c4Response none).2 ≠
        some (THANKS_BASE ++ "?code=XY-99999") := by
  constructor
  · decide
  · decide

/-- C4 amended: on `{"Coupon":"XY-99999"}` (no Page, no URL field) the
extractor recovers the code via the strict textual pattern on the raw body
and returns it with no redirect URL, whatever the fallback follow-up GET
would produce. -/
theorem C4_coupon_only_no_redirect (g : Option FollowUpResult) :
    extract_from_webhook_response c4Response g = (some "XY-99999", none) := rfl

/-- C5 counterexample: with deterministic-identity mode off
(`no_email = false`), the worker's POST body still contains an `email`
field (the fixed fallback email) — it is never `{operator}` alone. -/
theorem C5_counterexample :
    ("email", "example@email.com") ∈
      workerPayload false "unused" "example@email.com" "CoopVoce" ∧
      (workerPayload false "unused" "example@email.com" "CoopVoce").map
          Prod.fst ≠ ["operator"] := by
  constructor
  · decide
  · decide

/-- C5 amended: the worker's POST body always carries exactly the fields
`email` and `operator`; when deterministic-identity mode is off the email
value is the configured fallback email. -/
theorem C5_payload_always_has_email (no_email : Bool)
    (generated_email fallback_email operatorName : String) :
    (workerPayload no_email generated_email fallback_email operatorName).map
        Prod.fst = ["email", "operator"] ∧
      workerPayload false generated_email fallback_email operatorName =
        [("email", fallback_email), ("operator", operatorName)] := by
  cases no_email <;> simp [workerPayload]

/-- C6 counterexample: the coordinator's return value is the same for two
runs differing only in their seed — the seed is not part of what the caller
receives, so the result is not returned "together with the seed". -/
theorem C6_counterexample :
    coordinatorReturn "00000000aaaaaaaa" [("e1", "AB-11111"), ("e2", "AB-22222")] 1 =
        coordinatorReturn "ffffffffbbbbbbbb" [("e1", "AB-11111"), ("e2", "AB-22222")] 1 ∧
      ("00000000aaaaaaaa" : String) ≠ "ffffffffbbbbbbbb" := by
  constructor
  · decide
  · decide

/-- C6 amended: after the pool is drained the coordinator returns the
accumulated result list truncated to the requested count (the seed is only
logged, not returned). -/
theorem C6_truncates_results (seed_hex : String)
    (results : List (String × String)) (count : Nat) :
    coordinatorReturn seed_hex results count = results.take count ∧
      (coordinatorReturn seed_hex results count).length =
        min count results.length := by
  exact ⟨rfl, by simp [coordinatorReturn]⟩

/-- C7: with the checkpoint file absent, the starting index comes from
scanning the audit log: one past the maximum numeric suffix among entries
matching the seed's short prefix (zero if none match, zero if the log file
is absent); on the audit log `seed1234-000000@d`, `seed1234-000002@d` with
seed prefix `seed1234` it is 3. -/
theorem C7_index_recovery :
    startingIndex none (some ["seed1234-000000@d", "seed1234-000002@d"])
        "seed1234" = 3 ∧
      (∀ seed_short : String,
        find_last_index_for_seed_in_used (some []) seed_short = 0) ∧
      ∀ seed_short : String,
        find_last_index_for_seed_in_used none seed_short = 0 := by
  refine ⟨by decide, fun _ => rfl, fun _ => rfl⟩

/-- C8: when seed reuse is requested and the seed file is absent, the
coordinator stops with the configuration-error path: no worker thread is
spawned and the caller receives the empty result list, whatever harvest the
workers would have produced. -/
theorem C8_reuse_seed_missing (fresh_seed : String) (concurrency : Nat)
    (harvest : String → List (String × String)) (count : Nat) :
    generate_coupons_concurrent true none fresh_seed concurrency harvest
        count = ⟨true, 0, []⟩ := rfl

/-- C10: `read_index` never fails: an absent checkpoint file yields 0,
unparseable text yields 0, a negative value is clamped to 0, a plain
non-negative value (surrounding whitespace stripped) is returned, and the
result is never negative. -/
theorem C10_read_index_defaults :
    read_index none = 0 ∧
      read_index (some "not a number") = 0 ∧
      read_index (some "-5") = 0 ∧
      read_index (some " 7 ") = 7 ∧
      ∀ fileContent : Option String, 0 ≤ read_index fileContent := by
  refine ⟨by decide, by decide, by decide, by decide, ?_⟩
  intro fileContent
  cases fileContent with
  | none => exact le_refl 0
  | some s =>
    simp only [read_index]
    cases pyInt? (pyStrip s) with
    | none => exact le_refl 0
    | some v => exact le_max_left 0 v

end CouponGen
